import Mathlib

/-!
Verification of the task filtering / sorting / due-date classification core of
a small todo web application (`src/app.py`).

Modelling conventions:
* Timestamps (`datetime` values, UTC) are modelled as `Nat`, counting seconds
  since the epoch; one day is `86400` seconds, so truncating a timestamp to
  midnight (`replace(hour=0, minute=0, second=0, microsecond=0)`) is
  `n / 86400 * 86400`, and `timedelta(days=7)` is `7 * 86400`.
* The record store is a `List Task` in insertion (`rowid`) order.
* The ORM query pipeline of the `index` route is embedded as function
  composition of list filters, in the order the code applies them
  (status, then priority, then due-date, then sorting).
* `ORDER BY` on the store and Python's `list.sort` (which is stable) are both
  embedded as `List.mergeSort` with the comparison the code uses; for
  `list.sort(key=k, reverse=True)` the comparison is `k b ≤ k a` under the
  lexicographic order, which is exactly "stable sort, descending by key".
* `datetime.fromisoformat` is an external library function; the mutation
  routes are parameterised by an arbitrary parse function
  `String → Option Nat`, where `none` models the `ValueError` branch.
-/

namespace TodoApp

/-- The `Task` model of `src/app.py` (lines 20-26): integer primary key,
text content, completion flag, priority string (default `"medium"`),
optional due date, creation date. -/
structure Task where
  id : Nat
  content : String
  completed : Bool
  priority : String
  due_date : Option Nat
  created_date : Nat
deriving DecidableEq, Repr

/-- Seconds in one day, the unit conversion behind `timedelta(days=1)`
and midnight truncation. -/
def secondsPerDay : Nat := 86400

/-- `today.replace(hour=0, minute=0, second=0, microsecond=0)` (line 91):
truncation of a timestamp to the start of its UTC day. -/
def startOfDay (now : Nat) : Nat := now / secondsPerDay * secondsPerDay

/-- `Task.is_overdue` (lines 31-34): `False` when there is no due date or the
task is completed, otherwise `due_date < utcnow()`. -/
def Task.is_overdue (t : Task) (now : Nat) : Bool :=
  match t.due_date with
  | none => false
  | some d => if t.completed then false else decide (d < now)

/-- `Task.is_today` (lines 36-40): `False` when there is no due date,
otherwise `due_date.date() == utcnow().date()` (same UTC calendar day). -/
def Task.is_today (t : Task) (now : Nat) : Bool :=
  match t.due_date with
  | none => false
  | some d => decide (d / secondsPerDay = now / secondsPerDay)

/-- `Task.is_this_week` (lines 42-47): `False` when there is no due date,
otherwise `utcnow() <= due_date <= utcnow() + timedelta(days=7)`. -/
def Task.is_this_week (t : Task) (now : Nat) : Bool :=
  match t.due_date with
  | none => false
  | some d => decide (now ≤ d) && decide (d ≤ now + 7 * secondsPerDay)

/-- Status filter of the `index` route (lines 76-79): `"pending"` keeps
uncompleted tasks, `"completed"` keeps completed ones, anything else
(including the default `"all"`) leaves the query unchanged. -/
def statusFilter (s : String) (ts : List Task) : List Task :=
  if s = "pending" then ts.filter fun t => t.completed == false
  else if s = "completed" then ts.filter fun t => t.completed == true
  else ts

/-- Priority filter of the `index` route (lines 82-83): for any value other
than `"all"`, `filter_by(priority=value)` — exact string equality against the
stored priority. -/
def priorityFilter (p : String) (ts : List Task) : List Task :=
  if p ≠ "all" then ts.filter fun t => t.priority == p else ts

/-- Due-date filter of the `index` route (lines 86-95).  SQL comparisons
against a `NULL` `due_date` are not satisfied, so a task without a due date
is dropped by every non-`"all"` recognized branch; an unrecognized value
leaves the query unchanged. -/
def dueFilter (f : String) (now : Nat) (ts : List Task) : List Task :=
  if f ≠ "all" then
    if f = "overdue" then
      ts.filter fun t =>
        match t.due_date with
        | none => false
        | some d => decide (d < now) && (t.completed == false)
    else if f = "today" then
      ts.filter fun t =>
        match t.due_date with
        | none => false
        | some d => decide (startOfDay now ≤ d) && decide (d < startOfDay now + secondsPerDay)
    else if f = "this_week" then
      ts.filter fun t =>
        match t.due_date with
        | none => false
        | some d => decide (now ≤ d) && decide (d ≤ now + 7 * secondsPerDay)
    else ts
  else ts

/-- Priority rank used by the `sort=priority` branch (line 105):
`priority_order.get(t.priority, 3)` with `high→0, medium→1, low→2`. -/
def rank (p : String) : Nat :=
  if p = "high" then 0 else if p = "medium" then 1 else if p = "low" then 2 else 3

/-- Comparison for `ORDER BY created_date ASC` (line 99). -/
def leCreatedAsc (a b : Task) : Bool := decide (a.created_date ≤ b.created_date)

/-- Comparison for `ORDER BY created_date DESC` (lines 101 and 111). -/
def leCreatedDesc (a b : Task) : Bool := decide (b.created_date ≤ a.created_date)

/-- Comparison for `ORDER BY due_date ASC NULLS LAST` (line 103). -/
def leDueAsc (a b : Task) : Bool :=
  match a.due_date, b.due_date with
  | some x, some y => decide (x ≤ y)
  | some _, none => true
  | none, some _ => false
  | none, none => true

/-- The sort key of the `priority` branch (line 107):
`(priority_order.get(t.priority, 3), t.created_date)`. -/
def pkey (t : Task) : Nat × Nat := (rank t.priority, t.created_date)

/-- Non-strict lexicographic order on `Nat × Nat` pairs. -/
def lexLe (p q : Nat × Nat) : Bool :=
  decide (p.1 < q.1) || (decide (p.1 = q.1) && decide (p.2 ≤ q.2))

/-- Comparison realising `tasks.sort(key=..., reverse=True)` (line 107):
a stable sort that puts `a` before `b` exactly when `a`'s key is
lexicographically at least `b`'s key (descending by key, ties kept in
original order — Python's `reverse=True` does not reverse equal elements). -/
def lePriority (a b : Task) : Bool := lexLe (pkey b) (pkey a)

/-- Sorting stage of the `index` route (lines 98-111): the four recognized
sort selectors, with any other value falling back to `created_date DESC`. -/
def sortTasks (s : String) (ts : List Task) : List Task :=
  if s = "created_date_asc" then ts.mergeSort leCreatedAsc
  else if s = "created_date_desc" then ts.mergeSort leCreatedDesc
  else if s = "due_date_asc" then ts.mergeSort leDueAsc
  else if s = "priority" then ts.mergeSort lePriority
  else ts.mergeSort leCreatedDesc

/-- The query parameters of the `index` route, each `none` when the request
does not carry the parameter (lines 67-70 read them with
`request.args.get(..., default)`). -/
structure QueryRequest where
  status : Option String
  priority : Option String
  due_date : Option String
  sort : Option String

/-- The `index` route's query pipeline (lines 64-115): resolve defaults,
then apply the status, priority and due-date filters in order, then sort. -/
def index (req : QueryRequest) (now : Nat) (ts : List Task) : List Task :=
  let status_filter := req.status.getD "all"
  let priority_filter := req.priority.getD "all"
  let due_date_filter := req.due_date.getD "all"
  let sort_by := req.sort.getD "created_date_desc"
  sortTasks sort_by
    (dueFilter due_date_filter now
      (priorityFilter priority_filter
        (statusFilter status_filter ts)))

/-- The claimed `sort=priority` behavior, written from the claim's own words:
sort ascending by rank with ties within equal rank ordered by
`created_date` descending, then reverse the entire combined ordering. -/
def leClaimPriority (a b : Task) : Bool :=
  decide (rank a.priority < rank b.priority) ||
    (decide (rank a.priority = rank b.priority) && decide (b.created_date ≤ a.created_date))

/-- The claimed net ordering for `sort=priority`: the claim's base sort
followed by a reversal of the whole ordering. -/
def claimPrioritySort (ts : List Task) : List Task :=
  (ts.mergeSort leClaimPriority).reverse

/-- Due-date handling of the `add` route (lines 125-130): start from `None`;
a truthy (present, nonempty) form string is parsed, and a parse failure is
swallowed, leaving `None`. -/
def addDueDate (parse : String → Option Nat) (s : Option String) : Option Nat :=
  match s with
  | none => none
  | some str =>
    if str ≠ "" then
      match parse str with
      | some d => some d
      | none => none
    else none

/-- The `add` route (lines 117-135): a task is created only when the content
is present and nonempty after stripping; priority defaults to `"medium"`
when the field is absent; the due date comes from `addDueDate`; `completed`
defaults to `false` and `created_date` to the current time.  `idn` is the
primary key the store assigns. -/
def addTask (parse : String → Option Nat) (content : Option String)
    (priority : Option String) (due_date : Option String)
    (idn now : Nat) : Option Task :=
  match content with
  | none => none
  | some c =>
    if c.trim ≠ "" then
      some { id := idn, content := c.trim, completed := false,
             priority := priority.getD "medium",
             due_date := addDueDate parse due_date,
             created_date := now }
    else none

/-- The `complete` route (lines 137-143): the task with the given id gets its
`completed` flag negated; nothing else changes. -/
def complete (idn : Nat) (ts : List Task) : List Task :=
  ts.map fun t => if t.id = idn then { t with completed := !t.completed } else t

/-- Content step of the `edit` route (lines 161-162): the content is replaced
only when the form value is present and nonempty after stripping. -/
def editContent (content : Option String) (t : Task) : Task :=
  match content with
  | some c => if c.trim ≠ "" then { t with content := c.trim } else t
  | none => t

/-- Priority step of the `edit` route (lines 164-165): the priority is
replaced only when the form value is present and nonempty. -/
def editPriority (priority : Option String) (t : Task) : Task :=
  match priority with
  | some p => if p ≠ "" then { t with priority := p } else t
  | none => t

/-- Due-date step of the `edit` route (lines 167-173): a present nonempty
string is parsed, a parse failure being swallowed (previous value retained);
a present empty string clears the due date; an absent field changes
nothing. -/
def editDueDate (parse : String → Option Nat) (due_date : Option String)
    (t : Task) : Task :=
  match due_date with
  | some s =>
    if s ≠ "" then
      match parse s with
      | some d => { t with due_date := some d }
      | none => t
    else { t with due_date := none }
  | none => t

/-- The `edit` route (lines 153-176) applied to one task: the three field
mutations in the order the code performs them. -/
def editTask (parse : String → Option Nat) (content priority due_date : Option String)
    (t : Task) : Task :=
  editDueDate parse due_date (editPriority priority (editContent content t))

/-- Ascending due-date order with absent due dates last: the order the
`due_date_asc` selector is specified to produce. -/
def dueOrder (a b : Task) : Prop :=
  match a.due_date, b.due_date with
  | some x, some y => x ≤ y
  | some _, none => True
  | none, some _ => False
  | none, none => True

/-- A parse function on which every string fails to parse; stands in for
`datetime.fromisoformat` on malformed input (it raises on `""` too). -/
def parseNone : String → Option Nat := fun _ => none

/-- Concrete tasks used in witnesses and counterexamples. -/
def tMedOld : Task :=
  { id := 1, content := "a", completed := false, priority := "medium",
    due_date := none, created_date := 1 }

def tMedNew : Task :=
  { id := 2, content := "b", completed := false, priority := "medium",
    due_date := none, created_date := 2 }

def tUrgent : Task :=
  { id := 3, content := "c", completed := false, priority := "urgent",
    due_date := none, created_date := 3 }

def tDue : Task :=
  { id := 4, content := "d", completed := false, priority := "medium",
    due_date := some 100, created_date := 4 }

/-! ## Helper lemmas -/

theorem statusFilter_all (ts : List Task) : statusFilter "all" ts = ts := by
  unfold statusFilter
  rw [if_neg (by decide), if_neg (by decide)]

theorem priorityFilter_all (ts : List Task) : priorityFilter "all" ts = ts := by
  unfold priorityFilter
  rw [if_neg (by simp)]

theorem dueFilter_all (now : Nat) (ts : List Task) : dueFilter "all" now ts = ts := by
  unfold dueFilter
  rw [if_neg (by simp)]

theorem dueFilter_overdue (now : Nat) (ts : List Task) :
    dueFilter "overdue" now ts =
      ts.filter fun t =>
        match t.due_date with
        | none => false
        | some d => decide (d < now) && (t.completed == false) := by
  unfold dueFilter
  rw [if_pos (by decide), if_pos rfl]

theorem dueFilter_today (now : Nat) (ts : List Task) :
    dueFilter "today" now ts =
      ts.filter fun t =>
        match t.due_date with
        | none => false
        | some d => decide (startOfDay now ≤ d) && decide (d < startOfDay now + secondsPerDay) := by
  unfold dueFilter
  rw [if_pos (by decide), if_neg (by decide), if_pos rfl]

theorem dueFilter_this_week (now : Nat) (ts : List Task) :
    dueFilter "this_week" now ts =
      ts.filter fun t =>
        match t.due_date with
        | none => false
        | some d => decide (now ≤ d) && decide (d ≤ now + 7 * secondsPerDay) := by
  unfold dueFilter
  rw [if_pos (by decide), if_neg (by decide), if_neg (by decide), if_pos rfl]

theorem mem_of_mem_statusFilter {t : Task} (s : String) (ts : List Task) :
    t ∈ statusFilter s ts → t ∈ ts := by
  unfold statusFilter
  split_ifs <;> intro h
  · exact (List.mem_filter.mp h).1
  · exact (List.mem_filter.mp h).1
  · exact h

theorem mem_of_mem_priorityFilter {t : Task} (p : String) (ts : List Task) :
    t ∈ priorityFilter p ts → t ∈ ts := by
  unfold priorityFilter
  split_ifs <;> intro h
  · exact (List.mem_filter.mp h).1
  · exact h

theorem mem_of_mem_dueFilter {t : Task} (f : String) (now : Nat) (ts : List Task) :
    t ∈ dueFilter f now ts → t ∈ ts := by
  unfold dueFilter
  split_ifs <;> intro h <;>
    first
      | exact (List.mem_filter.mp h).1
      | exact h

theorem mem_sortTasks {t : Task} (s : String) (ts : List Task) :
    t ∈ sortTasks s ts ↔ t ∈ ts := by
  unfold sortTasks
  split_ifs <;> exact List.mem_mergeSort

theorem sortTasks_nil (s : String) : sortTasks s [] = [] := by
  unfold sortTasks
  split_ifs <;> simp

theorem dueFilter_nil (f : String) (now : Nat) : dueFilter f now [] = [] := by
  unfold dueFilter
  split_ifs <;> rfl

theorem index_nofilter (s : String) (now : Nat) (ts : List Task) :
    index ⟨none, none, none, some s⟩ now ts = sortTasks s ts := by
  unfold index
  simp only [Option.getD_none, Option.getD_some]
  rw [statusFilter_all, priorityFilter_all, dueFilter_all]

theorem sortTasks_priority (ts : List Task) :
    sortTasks "priority" ts = ts.mergeSort lePriority := by
  unfold sortTasks
  rw [if_neg (by decide), if_neg (by decide), if_neg (by decide), if_pos rfl]

theorem sortTasks_due_asc (ts : List Task) :
    sortTasks "due_date_asc" ts = ts.mergeSort leDueAsc := by
  unfold sortTasks
  rw [if_neg (by decide), if_neg (by decide), if_pos rfl]

/-- Stability of `mergeSort`, filter form: the subsequence of elements in a
single key class (any set of elements on which the comparison always holds)
is untouched by the sort. -/
theorem mergeSort_filter_congr {α : Type} (le : α → α → Bool) (p : α → Bool)
    (htrans : ∀ a b c, le a b → le b c → le a c)
    (htotal : ∀ a b, le a b || le b a)
    (hp : ∀ a b, p a → p b → le a b) (l : List α) :
    (l.mergeSort le).filter p = l.filter p := by
  have hpair : (l.filter p).Pairwise fun a b => le a b := by
    refine List.pairwise_of_forall_mem_list fun a ha b hb => ?_
    exact hp a b (List.of_mem_filter ha) (List.of_mem_filter hb)
  have hsub : List.Sublist (l.filter p) (l.mergeSort le) :=
    List.sublist_mergeSort htrans htotal hpair (List.filter_sublist l)
  have hsub2 : List.Sublist (l.filter p) ((l.mergeSort le).filter p) := by
    have h1 := hsub.filter p
    rwa [List.filter_eq_self.mpr fun a ha => List.of_mem_filter ha] at h1
  have hlen : ((l.mergeSort le).filter p).length = (l.filter p).length :=
    (List.Perm.filter p (List.mergeSort_perm l le)).length_eq
  exact (hsub2.eq_of_length hlen.symm).symm

/-- `mergeSort` on a two-element list is a single comparison. -/
theorem mergeSort_pair {α : Type} (le : α → α → Bool) (a b : α) :
    [a, b].mergeSort le = if le a b then [a, b] else [b, a] := by
  rw [List.mergeSort]
  simp [List.splitInTwo, List.splitAt, List.splitAt.go, List.merge]

theorem lePriority_iff (a b : Task) :
    lePriority a b = true ↔
      rank b.priority < rank a.priority ∨
        (rank b.priority = rank a.priority ∧ b.created_date ≤ a.created_date) := by
  simp [lePriority, lexLe, pkey]

theorem lePriority_trans :
    ∀ a b c : Task, lePriority a b → lePriority b c → lePriority a c := by
  intro a b c hab hbc
  simp only [lePriority, lexLe, pkey, Bool.or_eq_true, Bool.and_eq_true,
    decide_eq_true_eq] at hab hbc ⊢
  omega

theorem lePriority_total : ∀ a b : Task, lePriority a b || lePriority b a := by
  intro a b
  simp only [lePriority, lexLe, pkey, Bool.or_eq_true, Bool.and_eq_true,
    decide_eq_true_eq]
  omega

theorem leDueAsc_iff (a b : Task) : leDueAsc a b = true ↔ dueOrder a b := by
  unfold leDueAsc dueOrder
  cases a.due_date <;> cases b.due_date <;> simp

theorem leDueAsc_trans :
    ∀ a b c : Task, leDueAsc a b → leDueAsc b c → leDueAsc a c := by
  intro a b c
  unfold leDueAsc
  cases a.due_date <;> cases b.due_date <;> cases c.due_date <;> simp
  omega

theorem leDueAsc_total : ∀ a b : Task, leDueAsc a b || leDueAsc b a := by
  intro a b
  unfold leDueAsc
  cases a.due_date <;> cases b.due_date <;> simp
  omega

theorem editContent_due_date (c : Option String) (t : Task) :
    (editContent c t).due_date = t.due_date := by
  cases c with
  | none => rfl
  | some cc =>
    show (if cc.trim ≠ "" then { t with content := cc.trim } else t).due_date = t.due_date
    split_ifs <;> rfl

theorem editDueDate_fail (parse : String → Option Nat) (s : String) (u : Task)
    (hs : s ≠ "") (hfail : parse s = none) : editDueDate parse (some s) u = u := by
  show (if s ≠ "" then
      (match parse s with
        | some d => { u with due_date := some d }
        | none => u)
    else { u with due_date := none }) = u
  rw [if_pos hs, hfail]

theorem addDueDate_fail (parse : String → Option Nat) (s : String)
    (hfail : parse s = none) : addDueDate parse (some s) = none := by
  show (if s ≠ "" then
      (match parse s with
        | some d => some d
        | none => none)
    else none) = none
  split_ifs with hss
  · rw [hfail]
  · rfl

theorem addTask_some (parse : String → Option Nat) (cc : String)
    (pr d : Option String) (idn now : Nat) :
    addTask parse (some cc) pr d idn now =
      if cc.trim ≠ "" then
        some { id := idn, content := cc.trim, completed := false,
               priority := pr.getD "medium",
               due_date := addDueDate parse d,
               created_date := now }
      else none := rfl

theorem editPriority_due_date (p : Option String) (t : Task) :
    (editPriority p t).due_date = t.due_date := by
  cases p with
  | none => rfl
  | some pp =>
    show (if pp ≠ "" then { t with priority := pp } else t).due_date = t.due_date
    split_ifs <;> rfl

/-! ## Claims -/

/-- C2: a task is classified overdue — by the `due=overdue` filter and by the
per-task `is_overdue` flag alike — iff its due date is present, strictly
before `now`, and the task is not completed; in particular a completed task
or a task without a due date is never overdue. -/
theorem overdue_iff (now : Nat) (ts : List Task) (t : Task) :
    (t ∈ dueFilter "overdue" now ts ↔
      t ∈ ts ∧ (∃ d, t.due_date = some d ∧ d < now) ∧ t.completed = false)
  ∧ (t.is_overdue now = true ↔
      (∃ d, t.due_date = some d ∧ d < now) ∧ t.completed = false) := by
  constructor
  · rw [dueFilter_overdue, List.mem_filter]
    refine and_congr_right fun _ => ?_
    cases hd : t.due_date with
    | none => simp [hd]
    | some d =>
      cases hc : t.completed <;> simp [hd, hc, and_comm]
  · unfold Task.is_overdue
    cases hd : t.due_date with
    | none => simp [hd]
    | some d =>
      cases hc : t.completed <;> simp [hd, hc]

/-- C5: the `due=today` filter keeps exactly the tasks of the collection
whose due date is present and lies in the half-open interval
`[startOfDay now, startOfDay now + 1 day)`, where `startOfDay` truncates
`now` to midnight; tasks without a due date never match. -/
theorem today_filter_iff (now : Nat) (ts : List Task) (t : Task) :
    t ∈ dueFilter "today" now ts ↔
      t ∈ ts ∧ ∃ d, t.due_date = some d ∧
        startOfDay now ≤ d ∧ d < startOfDay now + secondsPerDay := by
  rw [dueFilter_today, List.mem_filter]
  refine and_congr_right fun _ => ?_
  cases hd : t.due_date with
  | none => simp [hd]
  | some d => simp [hd]

/-- C6: a task is classified as due this week — by the `due=this_week` filter
and by the per-task `is_this_week` flag alike — iff its due date is present
and `now ≤ due_date ≤ now + 7 days`, a closed rolling window from `now`. -/
theorem this_week_iff (now : Nat) (ts : List Task) (t : Task) :
    (t ∈ dueFilter "this_week" now ts ↔
      t ∈ ts ∧ ∃ d, t.due_date = some d ∧ now ≤ d ∧ d ≤ now + 7 * secondsPerDay)
  ∧ (t.is_this_week now = true ↔
      ∃ d, t.due_date = some d ∧ now ≤ d ∧ d ≤ now + 7 * secondsPerDay) := by
  constructor
  · rw [dueFilter_this_week, List.mem_filter]
    refine and_congr_right fun _ => ?_
    cases hd : t.due_date with
    | none => simp [hd]
    | some d => simp [hd]
  · unfold Task.is_this_week
    cases hd : t.due_date with
    | none => simp [hd]
    | some d => simp [hd]

/-- C1 counterexample: on two medium-priority tasks created at times 1 and 2,
the engine (Python's `sort(key=(rank, created_date), reverse=True)`) puts the
newer task first, while the claimed recipe — sort ascending by rank with ties
by `created_date` descending, then reverse the whole ordering — puts the
older task first. -/
theorem priority_sort_counterexample :
    index ⟨none, none, none, some "priority"⟩ 0 [tMedOld, tMedNew] = [tMedNew, tMedOld]
  ∧ claimPrioritySort [tMedOld, tMedNew] = [tMedOld, tMedNew]
  ∧ ([tMedNew, tMedOld] : List Task) ≠ [tMedOld, tMedNew] := by
  refine ⟨?_, ?_, by decide⟩
  · rw [index_nofilter, sortTasks_priority, mergeSort_pair, if_neg (by decide)]
  · unfold claimPrioritySort
    rw [mergeSort_pair, if_neg (by decide)]
    rfl

/-- C1 (amended): under `sort=priority` the engine returns a permutation of
the collection ordered by rank descending (`high→0, medium→1, low→2,
anything else→3`, so the net priority order is low-to-high, unrecognized
priorities first) and, within equal rank, by `created_date` descending;
tasks agreeing on both rank and `created_date` keep their original relative
order (the sort is stable, it does not reverse equal elements). -/
theorem priority_sort_spec (now : Nat) (ts : List Task) :
    (index ⟨none, none, none, some "priority"⟩ now ts).Perm ts
  ∧ (index ⟨none, none, none, some "priority"⟩ now ts).Pairwise
      (fun a b => rank b.priority < rank a.priority ∨
        (rank b.priority = rank a.priority ∧ b.created_date ≤ a.created_date))
  ∧ ∀ k : Nat × Nat,
      (index ⟨none, none, none, some "priority"⟩ now ts).filter (fun t => pkey t == k)
        = ts.filter (fun t => pkey t == k) := by
  rw [index_nofilter, sortTasks_priority]
  have hs := List.sorted_mergeSort lePriority_trans lePriority_total ts
  refine ⟨List.mergeSort_perm ts lePriority, ?_, ?_⟩
  · exact hs.imp fun hab => (lePriority_iff _ _).mp hab
  · intro k
    refine mergeSort_filter_congr lePriority (fun t => pkey t == k)
      lePriority_trans lePriority_total ?_ ts
    intro a b ha hb
    have ha2 : pkey a = k := by simpa using ha
    have hb2 : pkey b = k := by simpa using hb
    simp [lePriority, lexLe, ha2, hb2]

/-- C3: with `status=pending` every task the engine returns is uncompleted,
with `status=completed` every returned task is completed, and the `"all"`
status filter is the identity on the collection (the stage before the
priority and due filters run). -/
theorem status_filter_spec (req : QueryRequest) (now : Nat) (ts : List Task) :
    (req.status = some "pending" → ∀ t ∈ index req now ts, t.completed = false)
  ∧ (req.status = some "completed" → ∀ t ∈ index req now ts, t.completed = true)
  ∧ statusFilter "all" ts = ts := by
  refine ⟨?_, ?_, statusFilter_all ts⟩
  · intro h t ht
    simp only [index] at ht
    rw [mem_sortTasks] at ht
    replace ht := mem_of_mem_priorityFilter _ _ (mem_of_mem_dueFilter _ _ _ ht)
    rw [h, Option.getD_some] at ht
    unfold statusFilter at ht
    rw [if_pos rfl] at ht
    simpa using (List.mem_filter.mp ht).2
  · intro h t ht
    simp only [index] at ht
    rw [mem_sortTasks] at ht
    replace ht := mem_of_mem_priorityFilter _ _ (mem_of_mem_dueFilter _ _ _ ht)
    rw [h, Option.getD_some] at ht
    unfold statusFilter at ht
    rw [if_neg (by decide), if_pos rfl] at ht
    simpa using (List.mem_filter.mp ht).2

/-- C3 witness: on a concrete pending/completed pair, the `status=pending`
request returns only uncompleted tasks and the `"all"` filter is the
identity. -/
theorem status_filter_spec_witness :
    (∀ t ∈ index ⟨some "pending", none, none, none⟩ 0 [tMedOld, tMedNew], t.completed = false)
  ∧ statusFilter "all" [tMedOld, tMedNew] = [tMedOld, tMedNew] :=
  ⟨fun t ht => (status_filter_spec ⟨some "pending", none, none, none⟩ 0 [tMedOld, tMedNew]).1 rfl t ht,
   (status_filter_spec ⟨some "pending", none, none, none⟩ 0 [tMedOld, tMedNew]).2.2⟩

/-- C4: under `sort=due_date_asc` the engine returns a permutation of the
collection sorted by due date ascending with tasks lacking a due date all
strictly after every task that has one, and the sort is stable: tasks with
the same due date keep their original relative order. -/
theorem due_asc_sort_spec (now : Nat) (ts : List Task) :
    (index ⟨none, none, none, some "due_date_asc"⟩ now ts).Perm ts
  ∧ (index ⟨none, none, none, some "due_date_asc"⟩ now ts).Pairwise dueOrder
  ∧ (index ⟨none, none, none, some "due_date_asc"⟩ now ts).Pairwise
      (fun a b => a.due_date = none → b.due_date = none)
  ∧ ∀ k : Option Nat,
      (index ⟨none, none, none, some "due_date_asc"⟩ now ts).filter (fun t => t.due_date == k)
        = ts.filter (fun t => t.due_date == k) := by
  rw [index_nofilter, sortTasks_due_asc]
  have hs := List.sorted_mergeSort leDueAsc_trans leDueAsc_total ts
  refine ⟨List.mergeSort_perm ts leDueAsc, hs.imp fun h => (leDueAsc_iff _ _).mp h, ?_, ?_⟩
  · refine hs.imp ?_
    intro a b hab hnone
    unfold leDueAsc at hab
    cases hb : b.due_date with
    | none => rfl
    | some d => simp [hnone, hb] at hab
  · intro k
    refine mergeSort_filter_congr leDueAsc (fun t => t.due_date == k)
      leDueAsc_trans leDueAsc_total ?_ ts
    intro a b ha hb
    have ha2 : a.due_date = k := by simpa using ha
    have hb2 : b.due_date = k := by simpa using hb
    unfold leDueAsc
    rw [ha2, hb2]
    cases k <;> simp

/-- C7 counterexample: `"urgent"` is outside `{all, low, medium, high}`, yet
on a collection holding a task stored with priority `"urgent"` the priority
filter matches it and the engine returns a non-empty sequence. -/
theorem priority_filter_counterexample :
    ("urgent" = "all" ∨ "urgent" = "low" ∨ "urgent" = "medium" ∨ "urgent" = "high" → False)
  ∧ priorityFilter "urgent" [tUrgent] = [tUrgent]
  ∧ index ⟨none, some "urgent", none, none⟩ 0 [tUrgent] = [tUrgent]
  ∧ ([tUrgent] : List Task) ≠ [] := by
  have hp : priorityFilter "urgent" [tUrgent] = [tUrgent] := by
    unfold priorityFilter
    rw [if_pos (by decide)]
    rfl
  refine ⟨by decide, hp, ?_, by decide⟩
  unfold index
  simp only [Option.getD_none, Option.getD_some]
  rw [statusFilter_all, hp, dueFilter_all]
  unfold sortTasks
  rw [if_neg (by decide), if_pos rfl]
  simp

/-- C7 (amended): the priority filter is exact string equality, so for a
filter value outside `{all, low, medium, high}` it matches no task provided
every stored priority lies in the documented domain `{low, medium, high}`;
the engine then returns the empty sequence. -/
theorem priority_filter_unmatched (p : String) (so du srt : Option String)
    (now : Nat) (ts : List Task)
    (hdom : ∀ t ∈ ts, t.priority = "low" ∨ t.priority = "medium" ∨ t.priority = "high")
    (h1 : p ≠ "all") (h2 : p ≠ "low") (h3 : p ≠ "medium") (h4 : p ≠ "high") :
    priorityFilter p ts = [] ∧ index ⟨so, some p, du, srt⟩ now ts = [] := by
  have key : ∀ us : List Task,
      (∀ t ∈ us, t.priority = "low" ∨ t.priority = "medium" ∨ t.priority = "high") →
      priorityFilter p us = [] := by
    intro us hus
    unfold priorityFilter
    rw [if_pos h1, List.filter_eq_nil_iff]
    intro t ht
    rcases hus t ht with h | h | h <;> simp [h] <;> intro hh <;>
      first
        | exact h2 hh.symm
        | exact h3 hh.symm
        | exact h4 hh.symm
  refine ⟨key ts hdom, ?_⟩
  unfold index
  simp only [Option.getD_some]
  rw [key (statusFilter (so.getD "all") ts)
    (fun t ht => hdom t (mem_of_mem_statusFilter _ _ ht))]
  rw [dueFilter_nil, sortTasks_nil]

/-- C7 witness: with the unrecognized value `"urgent"` over a collection of
in-domain priorities, the filter and the engine both return nothing. -/
theorem priority_filter_unmatched_witness :
    priorityFilter "urgent" [tMedOld] = []
  ∧ index ⟨none, some "urgent", none, none⟩ 0 [tMedOld] = [] :=
  priority_filter_unmatched "urgent" none none none 0 [tMedOld]
    (by
      intro t ht
      simp only [List.mem_singleton] at ht
      rw [ht]
      exact Or.inr (Or.inl rfl))
    (by decide) (by decide) (by decide) (by decide)

/-- C8: any sort selector outside the four recognized values — including an
absent parameter — makes the engine produce exactly the `created_date_desc`
ordering; the engine is a total function of the request, so it returns a
deterministic result and cannot fault on malformed selector values. -/
theorem sort_fallback (so pr du : Option String) (s : Option String)
    (now : Nat) (ts : List Task)
    (h : ∀ v, s = some v →
      v ≠ "created_date_asc" ∧ v ≠ "created_date_desc" ∧ v ≠ "due_date_asc" ∧ v ≠ "priority") :
    index ⟨so, pr, du, s⟩ now ts = index ⟨so, pr, du, some "created_date_desc"⟩ now ts := by
  cases s with
  | none => rfl
  | some v =>
    obtain ⟨h1, h2, h3, h4⟩ := h v rfl
    unfold index
    simp only [Option.getD_some]
    unfold sortTasks
    rw [if_neg h1, if_neg h2, if_neg h3, if_neg h4, if_neg (by decide), if_pos rfl]

/-- C8 witness: `sort=bogus` yields the same output as
`sort=created_date_desc` on a concrete collection. -/
theorem sort_fallback_witness :
    index ⟨none, none, none, some "bogus"⟩ 0 [tMedOld, tMedNew]
      = index ⟨none, none, none, some "created_date_desc"⟩ 0 [tMedOld, tMedNew] :=
  sort_fallback none none none (some "bogus") 0 [tMedOld, tMedNew]
    (by
      intro v hv
      injection hv with hv2
      subst hv2
      exact ⟨by decide, by decide, by decide, by decide⟩)

/-- C9 counterexample: the empty string fails to parse as a timestamp
(`fromisoformat` raises on it, modelled by `parseNone`), yet the edit route
does not leave the previous due date unchanged on it: it clears a previously
set due date to `None` via the `elif due_date_str == ""` branch. -/
theorem edit_due_date_counterexample :
    parseNone "" = none
  ∧ (editTask parseNone none none (some "") tDue).due_date = none
  ∧ tDue.due_date = some 100 :=
  ⟨rfl, rfl, rfl⟩

/-- C9 (amended): at edit, every present *nonempty* due-date string that
fails to parse leaves the previous due date unchanged (the parse failure is
swallowed); a present empty string instead clears the due date.  At add, any
due-date string that fails to parse — empty or not — results in the task
being created with no due date. -/
theorem mutation_due_date_policy (parse : String → Option Nat) (s : String)
    (c p co pr : Option String) (t : Task) (idn now : Nat)
    (hfail : parse s = none) :
    (s ≠ "" → (editTask parse c p (some s) t).due_date = t.due_date)
  ∧ ∀ u ∈ addTask parse co pr (some s) idn now, u.due_date = none := by
  constructor
  · intro hs
    unfold editTask
    rw [editDueDate_fail parse s _ hs hfail, editPriority_due_date, editContent_due_date]
  · intro u hu
    cases co with
    | none => simp [addTask] at hu
    | some cc =>
      rw [addTask_some] at hu
      split_ifs at hu with h
      · simp only [Option.mem_def, Option.some.injEq] at hu
        rw [← hu]
        exact addDueDate_fail parse s hfail
      · simp at hu

/-- C9 witness: a nonempty unparseable string leaves the due date of a
concrete task unchanged at edit, and a task added with it has no due
date. -/
theorem mutation_due_date_policy_witness :
    (editTask parseNone none none (some "x") tDue).due_date = tDue.due_date
  ∧ ∀ u ∈ addTask parseNone (some "hello") none (some "x") 9 7, u.due_date = none :=
  ⟨(mutation_due_date_policy parseNone "x" none none (some "hello") none tDue 9 7 rfl).1
      (by decide),
   (mutation_due_date_policy parseNone "x" none none (some "hello") none tDue 9 7 rfl).2⟩

/-- C10: toggling completion of a task id negates exactly the `completed`
flag of the tasks bearing that id and preserves every other field and every
other task; applying the toggle twice restores the original store. -/
theorem complete_toggle_frame (idn : Nat) (ts : List Task) :
    complete idn (complete idn ts) = ts
  ∧ List.Forall₂ (fun t u =>
      u.id = t.id ∧ u.content = t.content ∧ u.priority = t.priority ∧
      u.due_date = t.due_date ∧ u.created_date = t.created_date ∧
      u.completed = (if t.id = idn then !t.completed else t.completed))
      ts (complete idn ts) := by
  induction ts with
  | nil => exact ⟨rfl, List.Forall₂.nil⟩
  | cons t tl ih =>
    constructor
    · simp only [complete, List.map_cons] at ih ⊢
      rw [ih.1]
      by_cases h : t.id = idn
      · simp [h, Bool.not_not]
        rw [← h]
      · simp [h]
    · simp only [complete, List.map_cons]
      refine List.Forall₂.cons ?_ ?_
      · by_cases h : t.id = idn <;> simp [h]
      · simpa only [complete] using ih.2

end TodoApp
